import Mathlib

/-!
Verification development for the reticulator resource graph and
dirty-tracking persistence engine.

The definitions below are a shallow embedding of the engine found in
`reticulator/core.py` (the mature engine: `Resource`, `FileResource`,
`JsonResource`, `JsonSubResource`, `JsonFileResource`, the jsonpath
helpers) together with the mutation-observing containers `NotifyDict` /
`NotifyList` (identical in `reticulator/core.py` and
`reticulator/reticulator.py`) and the dirty-propagation chain of
`JsonSubResource.dirty`.

JSON documents are modelled by `JsonValue`; Python `None` and JSON
`null` are both `JsonValue.null` (the source conflates them in
`NotifyDict.get_item`).  The `dpath` library calls (`dpath.get`,
`dpath.new`, `dpath.delete`) are modelled for concrete slash-delimited
paths (the engine only uses concrete paths); `dpath.new` returns `none`
(an exception in the source) when a scalar blocks the path, and glob
patterns are outside the model.  Filesystem effects are recorded as an
explicit event trace.  `Path`-normalising comparison (`smart_compare`)
is modelled as string equality.
-/

namespace Reticulator

mutual
/-- JSON-like data: the values stored in a resource's `data`.
`null` doubles as Python `None`. -/
inductive JsonValue where
  | null
  | bool (b : Bool)
  | num (n : Int)
  | str (s : String)
  | arr (xs : JsonArr)
  | obj (kvs : JsonObj)
deriving DecidableEq
inductive JsonArr where
  | nil
  | cons (v : JsonValue) (xs : JsonArr)
deriving DecidableEq
inductive JsonObj where
  | nil
  | cons (k : String) (v : JsonValue) (kvs : JsonObj)
deriving DecidableEq
end

/-- Keys of an object, in insertion order (Python dicts preserve it). -/
def JsonObj.keys : JsonObj → List String
  | .nil => []
  | .cons k _ kvs => k :: kvs.keys

/-- Values of an object, in insertion order. -/
def JsonObj.values : JsonObj → List JsonValue
  | .nil => []
  | .cons _ v kvs => v :: kvs.values

/-- Number of entries of an object. -/
def JsonObj.length : JsonObj → Nat
  | .nil => 0
  | .cons _ _ kvs => 1 + kvs.length

/-- Python `dict.__getitem__` as an `Option`: the value stored at a key. -/
def JsonObj.lookup : JsonObj → String → Option JsonValue
  | .nil, _ => none
  | .cons k v kvs, key => if k = key then some v else kvs.lookup key

/-- Python `dict.__setitem__`: replace in place if present, else append. -/
def JsonObj.insert : JsonObj → String → JsonValue → JsonObj
  | .nil, key, v => .cons key v .nil
  | .cons k w kvs, key, v =>
    if k = key then .cons k v kvs else .cons k w (kvs.insert key v)

/-- Python `dict.__delitem__` on a present key: drop the entry. -/
def JsonObj.erase : JsonObj → String → JsonObj
  | .nil, _ => .nil
  | .cons k v kvs, key => if k = key then kvs else .cons k v (kvs.erase key)

/-- Length of a sequence. -/
def JsonArr.length : JsonArr → Nat
  | .nil => 0
  | .cons _ xs => 1 + xs.length

/-- Elements of a sequence as a Lean list. -/
def JsonArr.toList : JsonArr → List JsonValue
  | .nil => []
  | .cons v xs => v :: xs.toList

/-- Python `list.__getitem__` for a non-negative index. -/
def JsonArr.get? : JsonArr → Nat → Option JsonValue
  | .nil, _ => none
  | .cons v _, 0 => some v
  | .cons _ xs, i + 1 => xs.get? i

/-- Python `list.__setitem__` for an in-range index. -/
def JsonArr.set : JsonArr → Nat → JsonValue → JsonArr
  | .nil, _, _ => .nil
  | .cons _ xs, 0, v => .cons v xs
  | .cons w xs, i + 1, v => .cons w (xs.set i v)

/-- Python `list.append`. -/
def JsonArr.push : JsonArr → JsonValue → JsonArr
  | .nil, v => .cons v .nil
  | .cons w xs, v => .cons w (xs.push v)

/-- Python `list.extend`. -/
def JsonArr.extendBy : JsonArr → JsonArr → JsonArr
  | .nil, ys => ys
  | .cons w xs, ys => .cons w (xs.extendBy ys)

/-- Python `list.remove`-by-index / `dpath.delete` of a sequence entry. -/
def JsonArr.removeIdx : JsonArr → Nat → JsonArr
  | .nil, _ => .nil
  | .cons _ xs, 0 => xs
  | .cons w xs, i + 1 => .cons w (xs.removeIdx i)

/-- Whether a value is a map or a sequence (the shapes `get_data_at`
accepts). -/
def JsonValue.isContainer : JsonValue → Bool
  | .arr _ => true
  | .obj _ => true
  | _ => false

/-- Splits a character list at `/` boundaries (the behaviour of
Python `str.split("/")`, one separator character). -/
def splitOnSlash : List Char → List Char → List String
  | [], acc => [String.mk acc.reverse]
  | c :: rest, acc =>
    if c = '/' then String.mk acc.reverse :: splitOnSlash rest []
    else splitOnSlash rest (c :: acc)

/-- Segments of a slash-delimited jsonpath, empty segments dropped, as
`dpath` does. -/
def splitPath (p : String) : List String :=
  (splitOnSlash p.data []).filter (fun s => s ≠ "")

/-- The numeric value of a decimal digit character, when it is one. -/
def charDigit? (c : Char) : Option Nat :=
  if 48 ≤ c.toNat ∧ c.toNat ≤ 57 then some (c.toNat - 48) else none

/-- Accumulates decimal digits, failing on a non-digit. -/
def segToNatAux : List Char → Nat → Option Nat
  | [], n => some n
  | c :: rest, n =>
    match charDigit? c with
    | some d => segToNatAux rest (n * 10 + d)
    | none => none

/-- Python `int(segment)` for the non-negative decimal segments `dpath`
uses to index sequences; `none` when the segment is not such a
number. -/
def segToNat? (s : String) : Option Nat :=
  match s.data with
  | [] => none
  | c :: rest => segToNatAux (c :: rest) 0

/-- Decimal digits of a number, with structural fuel. -/
def natDigitsAux : Nat → Nat → List Char
  | 0, _ => []
  | fuel + 1, n =>
    if n < 10 then [Char.ofNat (48 + n)]
    else natDigitsAux fuel (n / 10) ++ [Char.ofNat (48 + n % 10)]

/-- Decimal representation of a natural number (Python `f-string`
interpolation of an index). -/
def natToStr (n : Nat) : String := String.mk (natDigitsAux (n + 1) n)

/-- Model of `dpath.get` for a concrete path: walk the segments, keys
into maps, decimal indices into sequences; `none` when the path does
not resolve (an exception in the source). -/
def dpathGet : JsonValue → List String → Option JsonValue
  | v, [] => some v
  | .obj kvs, s :: rest =>
    match kvs.lookup s with
    | some v => dpathGet v rest
    | none => none
  | .arr xs, s :: rest =>
    match segToNat? s with
    | some i =>
      match xs.get? i with
      | some v => dpathGet v rest
      | none => none
    | none => none
  | _, _ :: _ => none

/-- Model of `dpath.new` for a concrete path: sets the value at the
path, creating intermediate maps for missing keys.  Returns `none`
(an exception in the source) when a scalar or an out-of-range index
blocks the path, or the path is empty. -/
def dpathNew : JsonValue → List String → JsonValue → Option JsonValue
  | _, [], _ => none
  | .obj kvs, [s], nv => some (.obj (kvs.insert s nv))
  | .obj kvs, s :: s2 :: rest, nv =>
    (match kvs.lookup s with
     | some v => dpathNew v (s2 :: rest) nv
     | none => dpathNew (.obj .nil) (s2 :: rest) nv).map
      (fun v2 => .obj (kvs.insert s v2))
  | .arr xs, [s], nv =>
    match segToNat? s with
    | some i => if (xs.get? i).isSome then some (.arr (xs.set i nv)) else none
    | none => none
  | .arr xs, s :: s2 :: rest, nv =>
    match segToNat? s with
    | some i =>
      match xs.get? i with
      | some v => (dpathNew v (s2 :: rest) nv).map (fun v2 => .arr (xs.set i v2))
      | none => none
    | none => none
  | _, _ :: _, _ => none

/-- Model of `dpath.delete` for a concrete path, total: removes the
addressed entry, leaving the document unchanged when the path does not
resolve (the engine only calls it after an existence check). -/
def dpathDelete : JsonValue → List String → JsonValue
  | v, [] => v
  | .obj kvs, [s] => .obj (kvs.erase s)
  | .obj kvs, s :: s2 :: rest =>
    match kvs.lookup s with
    | some v => .obj (kvs.insert s (dpathDelete v (s2 :: rest)))
    | none => .obj kvs
  | .arr xs, [s] =>
    match segToNat? s with
    | some i => .arr (xs.removeIdx i)
    | none => .arr xs
  | .arr xs, s :: s2 :: rest =>
    match segToNat? s with
    | some i =>
      match xs.get? i with
      | some v => .arr (xs.set i (dpathDelete v (s2 :: rest)))
      | none => .arr xs
    | none => .arr xs
  | v, _ :: _ => v

/-- Error kinds of the engine (`core.py` exception classes, plus
`pathError` for an exception escaping `dpath`). -/
inductive RetErr where
  | floatingAsset
  | assetNotFound
  | ambiguousAsset
  | pathError
deriving DecidableEq

/-- Embedding of `JsonResource.get_jsonpath` (`core.py` 733-749): the
value at the path, the default when the path is absent and a default
was supplied, `AssetNotFoundError` otherwise.  The function reads the
document and never writes it. -/
def get_jsonpath (data : JsonValue) (path : String) (default : Option JsonValue) :
    Except RetErr JsonValue :=
  match dpathGet data (splitPath path) with
  | some v => .ok v
  | none =>
    match default with
    | some d => .ok d
    | none => .error .assetNotFound

/-- Embedding of `JsonResource.jsonpath_exists` (`core.py` 669-677). -/
def jsonpath_exists (data : JsonValue) (path : String) : Bool :=
  (dpathGet data (splitPath path)).isSome

/-- Children of a map value as `(path, value)` pairs,
path = `<base>/<key>` (the dict branch of `get_data_at`). -/
def objChildren (base : String) : JsonObj → List (String × JsonValue)
  | .nil => []
  | .cons k v kvs => (base ++ "/" ++ k, v) :: objChildren base kvs

/-- Children of a sequence value as `(path, value)` pairs starting at
index `i`, path = `<base>/[i]` (the list branch of `get_data_at`). -/
def arrChildren (base : String) (i : Nat) : JsonArr → List (String × JsonValue)
  | .nil => []
  | .cons v xs => (base ++ "/[" ++ natToStr i ++ "]", v) :: arrChildren base (i + 1) xs

/-- Embedding of `JsonResource.get_data_at` (`core.py` 751-777): the
path `"**"` addresses the root; otherwise the path is read with
default `[]` (so a missing path enumerates nothing); a map yields its
entries, a sequence its elements, anything else raises
`AmbiguousAssetError`. -/
def get_data_at (data : JsonValue) (path : String) :
    Except RetErr (List (String × JsonValue)) :=
  let result := if path = "**" then data
                else (dpathGet data (splitPath path)).getD (.arr .nil)
  match result with
  | .obj kvs => .ok (objChildren path kvs)
  | .arr xs => .ok (arrChildren path 0 xs)
  | _ => .error .ambiguousAsset

/-- Result of `NotifyDict.get_item` (`core.py` 430-434): the stored
value, or Python `None` (here `JsonValue.null`) when the key is
missing. -/
def get_item (kvs : JsonObj) (k : String) : JsonValue :=
  (kvs.lookup k).getD .null

/-- One mutation of a Notify Container: the operations `NotifyDict` and
`NotifyList` intercept (`core.py` 417-492). -/
inductive MutOp where
  | setKey (k : String) (v : JsonValue)
  | delKey (k : String)
  | setIdx (i : Nat) (v : JsonValue)
  | appendVal (v : JsonValue)
  | extendVals (vs : JsonArr)
deriving DecidableEq

/-- Embedding of the `NotifyDict` / `NotifyList` mutators.  Returns the
mutated container (or `none` when Python would raise: a missing key on
delete, an out-of-range index, a shape mismatch) and whether the owner
is notified (`owner.dirty = True`):

* `__setitem__` on a dict notifies iff the new value differs from
  `get_item` of the previous one (missing compares as `None`);
* `__delitem__` notifies unconditionally (before the delete runs);
* `__setitem__` on a list notifies iff the new value differs from the
  stored one (`__getitem__` raises first when out of range);
* `append` and `extend` notify unconditionally.

`convert_to_notify_structure` only rebinds ownership and preserves
content equality, so it is the identity here. -/
def applyMutOp : JsonValue → MutOp → Option JsonValue × Bool
  | .obj kvs, .setKey k v => (some (.obj (kvs.insert k v)), get_item kvs k ≠ v)
  | .obj kvs, .delKey k =>
    ((kvs.lookup k).map (fun _ => .obj (kvs.erase k)), true)
  | .arr xs, .setIdx i v =>
    match xs.get? i with
    | some w => (some (.arr (xs.set i v)), w ≠ v)
    | none => (none, false)
  | .arr xs, .appendVal v => (some (.arr (xs.push v)), true)
  | .arr xs, .extendVals vs => (some (.arr (xs.extendBy vs)), true)
  | _, _ => (none, false)

/-- A Notify Container operation seen by a container whose owner is
present: the owner's dirty flag is set on notification, otherwise left
as it was. -/
def notifyApply (container : JsonValue) (dirty : Bool) (op : MutOp) :
    Option JsonValue × Bool :=
  let r := applyMutOp container op
  (r.1, if r.2 then true else dirty)

/-- The ancestor chain of a Json Sub-Resource: its own dirty flag, then
its parent's, ending at the enclosing Json File Resource. -/
inductive RChain where
  | file (dirty : Bool)
  | sub (dirty : Bool) (parent : RChain)
deriving DecidableEq

/-- Embedding of the `dirty` setters: `Resource.dirty` (`core.py`
538-540) just stores the flag; `JsonSubResource.dirty` (`core.py`
844-851) stores it and assigns the same value to the parent's `dirty`,
recursively up the chain. -/
def RChain.setDirty : RChain → Bool → RChain
  | .file _, b => .file b
  | .sub _ p, b => .sub b (p.setDirty b)

/-- All dirty flags along the chain, the sub-resource's own first, the
file's last. -/
def RChain.flags : RChain → List Bool
  | .file d => [d]
  | .sub d p => d :: p.flags

/-- A mutation of `s.data` as seen by the sub-resource `s` owning the
container (`reticulator.py` 305-316 wires `data` into a Notify
Container owned by `s`; every nested container shares that owner):
when the container notifies, `s.dirty = True` runs, which propagates
up the chain. -/
def mutateData (c : RChain) (container : JsonValue) (op : MutOp) :
    Option JsonValue × RChain :=
  let r := applyMutOp container op
  (r.1, if r.2 then c.setDirty true else c)

/-- A Pack: input root and output root (`core.py` `Pack`). -/
structure Pack where
  inputPath : String
  outputDirectory : String
deriving DecidableEq

mutual
/-- A Json Sub-Resource (`core.py` 780-886): its `data`, its current
`json_path` and construction-time `_original_json_path`, its `_dirty`
and `_deleted` flags, and its registered child sub-resources
(`_resources`).  `sid` is an identity tag used only to name the
resource in the event trace. -/
inductive SubTree where
  | mk (sid : Nat) (data : JsonValue) (jsonPath origPath : String)
       (dirty deleted : Bool) (children : SubForest)
deriving DecidableEq
/-- The `_resources` list of registered child sub-resources. -/
inductive SubForest where
  | nil
  | cons (t : SubTree) (ts : SubForest)
deriving DecidableEq
end

def SubTree.sid : SubTree → Nat
  | .mk i _ _ _ _ _ _ => i

def SubTree.data : SubTree → JsonValue
  | .mk _ d _ _ _ _ _ => d

def SubTree.jsonPath : SubTree → String
  | .mk _ _ jp _ _ _ _ => jp

def SubTree.origPath : SubTree → String
  | .mk _ _ _ op _ _ _ => op

def SubTree.dirty : SubTree → Bool
  | .mk _ _ _ _ d _ _ => d

def SubTree.deleted : SubTree → Bool
  | .mk _ _ _ _ _ d _ => d

def SubTree.children : SubTree → SubForest
  | .mk _ _ _ _ _ _ c => c

/-- The first registered child of a forest, when any. -/
def SubForest.head? : SubForest → Option SubTree
  | .nil => none
  | .cons t _ => some t

/-- A Json File Resource (`core.py` 888-958): backing `filepath`, the
optional owning `pack` (`none` = floating asset), its `data`, flags,
and registered child sub-resources. -/
structure FileNode where
  filepath : String
  pack : Option Pack
  data : JsonValue
  dirty : Bool
  deleted : Bool
  children : SubForest
deriving DecidableEq

/-- Filesystem effects of the engine, as an explicit trace:
`persistSub i` marks `JsonSubResource._save` running on the resource
tagged `i` (an in-memory write into its parent); `writeFile` and
`removeFile` are the `json.dump` and `os.remove` calls of
`JsonFileResource._save`, addressed by output root and relative
path. -/
inductive Event where
  | persistSub (sid : Nat)
  | writeFile (root path : String) (data : JsonValue)
  | removeFile (root path : String)
deriving DecidableEq

/-- Whether an event touches the disk. -/
def Event.isDisk : Event → Bool
  | .persistSub _ => false
  | .writeFile _ _ _ => true
  | .removeFile _ _ => true

/-- A call a sub-resource makes on its parent while saving or deleting
itself: `parent.delete_jsonpath`, `parent.set_jsonpath`, or an
assignment to `parent.dirty` through the parent's dirty setter. -/
inductive POp where
  | deleteJsonpath (path : String)
  | setJsonpath (path : String) (v : JsonValue)
  | setDirty (b : Bool)
deriving DecidableEq

/-- A resource interpreting the calls its child makes on it, in order
(`core.py`: `delete_jsonpath` 679-686 marks dirty only when the path
exists, then deletes; `set_jsonpath` 714-730 with the default
`overwrite=True` always marks dirty, then runs `dpath.new`; a `dirty`
assignment stores the flag).  Every dirty assignment this resource
performs also travels up through its own dirty setter, so it is
re-emitted in the forwarded list (`JsonSubResource.dirty`, `core.py`
844-851); the enclosing file discards that list (`Resource.dirty`,
`core.py` 538-540, does not propagate). -/
def applyOps (d : JsonValue) (dirty : Bool) :
    List POp → Except RetErr (JsonValue × Bool × List POp)
  | [] => .ok (d, dirty, [])
  | POp.deleteJsonpath p :: rest =>
    if jsonpath_exists d p then
      match applyOps (dpathDelete d (splitPath p)) true rest with
      | .error e => .error e
      | .ok (d2, b2, fwd) => .ok (d2, b2, POp.setDirty true :: fwd)
    else applyOps d dirty rest
  | POp.setJsonpath p v :: rest =>
    match dpathNew d (splitPath p) v with
    | none => .error .pathError
    | some d1 =>
      match applyOps d1 true rest with
      | .error e => .error e
      | .ok (d2, b2, fwd) => .ok (d2, b2, POp.setDirty true :: fwd)
  | POp.setDirty b :: rest =>
    match applyOps d b rest with
    | .error e => .error e
    | .ok (d2, b2, fwd) => .ok (d2, b2, POp.setDirty b :: fwd)

/-- The calls `JsonSubResource._save` (`core.py` 854-873) makes on its
parent: nothing when deleted; otherwise delete at the original path
first when the current path differs, then set the current data at the
current path.  `_original_json_path` is not touched. -/
def subOwnOps (deleted : Bool) (jp op : String) (d : JsonValue) : List POp :=
  if deleted then []
  else if jp ≠ op then [POp.deleteJsonpath op, POp.setJsonpath jp d]
  else [POp.setJsonpath jp d]

mutual
/-- Embedding of `Resource.save` (`core.py` 565-587) for a
sub-resource: no floating check (only File Resources raise); when
dirty or forced, save every registered child first with the same
force flag, then run `_save` (emitting the calls on the parent and
clearing `_dirty`), then assign `self.dirty = False`, which the setter
also propagates to the parent as the final forwarded call. -/
def saveSub (force : Bool) : SubTree → Except RetErr (SubTree × List POp × List Event)
  | .mk i d jp op dirty deleted kids =>
    if dirty || force then
      match saveKids force kids d dirty with
      | .error e => .error e
      | .ok (kids2, d2, _dirty2, fwd, evs) =>
        .ok (.mk i d2 jp op false deleted kids2,
             fwd ++ subOwnOps deleted jp op d2 ++ [POp.setDirty false],
             evs ++ [Event.persistSub i])
    else .ok (.mk i d jp op dirty deleted kids, [], [])

/-- The child-saving loop of `Resource.save`: each child is saved, and
the calls it makes on this resource are interpreted against this
resource's data and dirty flag before the next child runs. -/
def saveKids (force : Bool) :
    SubForest → JsonValue → Bool →
    Except RetErr (SubForest × JsonValue × Bool × List POp × List Event)
  | .nil, d, dirty => .ok (.nil, d, dirty, [], [])
  | .cons t ts, d, dirty =>
    match saveSub force t with
    | .error e => .error e
    | .ok (t2, ops, evs1) =>
      match applyOps d dirty ops with
      | .error e => .error e
      | .ok (d1, dirty1, fwd1) =>
        match saveKids force ts d1 dirty1 with
        | .error e => .error e
        | .ok (ts2, d2, dirty2, fwd2, evs2) =>
          .ok (.cons t2 ts2, d2, dirty2, fwd1 ++ fwd2, evs1 ++ evs2)
end

/-- Embedding of `smart_compare` (`core.py` 366-378); `Path`
normalisation is abstracted to string equality. -/
def smart_compare (a b : String) : Bool := a = b

/-- Drops the entries holding `null` from an object. -/
def cleanObj : JsonObj → JsonObj
  | .nil => .nil
  | .cons k v kvs => if v = .null then cleanObj kvs else .cons k v (cleanObj kvs)

/-- The top-level filter of `JsonFileResource._save` (`core.py` 957):
entries whose value is `None` are dropped before `json.dump`. -/
def cleanData : JsonValue → JsonValue
  | .obj kvs => .obj (cleanObj kvs)
  | v => v

/-- Disk effect of `JsonFileResource._save` (`core.py` 945-958): a
file marked for deletion is physically removed at the output location
only when the input root and the output root compare equal, otherwise
nothing happens on disk; an unmarked file is written (with `None`
entries dropped) at the output location. -/
def fileOwnEvents (pk : Pack) (deleted : Bool) (fp : String) (d : JsonValue) :
    List Event :=
  if deleted then
    if smart_compare pk.inputPath pk.outputDirectory then
      [Event.removeFile pk.outputDirectory fp]
    else []
  else [Event.writeFile pk.outputDirectory fp (cleanData d)]

/-- Embedding of `Resource.save` (`core.py` 565-587) for a Json File
Resource: a File Resource without a pack raises `FloatingAssetError`
before anything else; then, only when dirty or forced, the registered
children are saved first with the same force flag (their calls
interpreted against this file's data and dirty flag), the file's own
`_save` runs, and `dirty` is cleared as the terminal step. -/
def saveFile (f : FileNode) (force : Bool) : Except RetErr (FileNode × List Event) :=
  match f.pack with
  | none => .error .floatingAsset
  | some pk =>
    if f.dirty || force then
      match saveKids force f.children f.data f.dirty with
      | .error e => .error e
      | .ok (kids2, d2, _dirty2, _fwd, kevs) =>
        .ok ({ f with children := kids2, data := d2, dirty := false },
             kevs ++ fileOwnEvents pk f.deleted f.filepath d2)
    else .ok (f, [])

mutual
/-- Embedding of `Resource.delete` (`core.py` 590-600) for a
sub-resource: delete every registered child first, then run `_delete`
(`core.py` 875-886): assign `parent.dirty = True`, remove self from
the parent's `_resources` (reflected structurally by the caller),
set `_deleted`, and call `parent.delete_jsonpath(self.json_path)`. -/
def deleteSub : SubTree → Except RetErr (SubTree × List POp)
  | .mk i d jp op dirty _deleted kids =>
    match deleteKids kids d dirty with
    | .error e => .error e
    | .ok (kids2, d2, dirty2, fwd) =>
      .ok (.mk i d2 jp op dirty2 true kids2,
           fwd ++ [POp.setDirty true, POp.deleteJsonpath jp])

/-- The child-deleting loop of `Resource.delete`.  Python iterates
`self._resources` by cursor while each child's `_delete` removes that
child from the same list, so after each processed child the next one
is skipped (it stays registered and undeleted). -/
def deleteKids :
    SubForest → JsonValue → Bool →
    Except RetErr (SubForest × JsonValue × Bool × List POp)
  | .nil, d, dirty => .ok (.nil, d, dirty, [])
  | .cons a rest, d, dirty =>
    match deleteSub a with
    | .error e => .error e
    | .ok (_a2, opsA) =>
      match applyOps d dirty opsA with
      | .error e => .error e
      | .ok (d1, dirty1, fwd1) =>
        match rest with
        | .nil => .ok (.nil, d1, dirty1, fwd1)
        | .cons b rest2 =>
          match deleteKids rest2 d1 dirty1 with
          | .error e => .error e
          | .ok (ts2, d2, dirty2, fwd2) =>
            .ok (.cons b ts2, d2, dirty2, fwd1 ++ fwd2)
end

/-- Embedding of `Resource.delete` on a Json File Resource: child
sub-resources delete themselves out of the file's data first, then
`FileResource._delete` (`core.py` 625-632) only marks the file for
deletion — no filesystem call happens, hence the empty event trace. -/
def deleteFile (f : FileNode) : Except RetErr (FileNode × List Event) :=
  match deleteKids f.children f.data f.dirty with
  | .error e => .error e
  | .ok (kids2, d2, dirty2, _fwd) =>
    .ok ({ f with children := kids2, data := d2, dirty := dirty2, deleted := true },
         [])

/-! Theorems. -/

/-- Assigning a dirty value through `JsonSubResource.dirty` rewrites
every flag on the chain to that value. -/
theorem RChain.setDirty_flags (c : RChain) (b : Bool) :
    (c.setDirty b).flags = List.replicate c.flags.length b := by
  induction c with
  | file d => simp [RChain.setDirty, RChain.flags, List.replicate]
  | sub d p ih => simp [RChain.setDirty, RChain.flags, List.replicate, ih]

/-- C10: assigning `s.dirty = b` on a Json Sub-Resource stores `b` on
`s` itself and assigns `b` to the parent's dirty flag, transitively up
every ancestor to the enclosing file, regardless of the flags'
previous values — in particular assigning `false` clears every
ancestor even if it had other unsaved modifications
(`JsonSubResource.dirty`, `core.py` 844-851). -/
theorem c10_dirty_assignment_propagates (c : RChain) (b : Bool) :
    (c.setDirty b).flags = List.replicate c.flags.length b ∧
    ∀ d p, (RChain.sub d p).setDirty b = .sub b (p.setDirty b) := by
  refine ⟨RChain.setDirty_flags c b, fun d p => rfl⟩

/-- C1 (amended): a mutation of `s.data` that the Notify Container
reports — a keyed write whose value differs from the stored one
(a missing key comparing as `None`), any deletion, any append or
extend — sets `s.dirty` and, through the sub-resource chain, the
dirty flag of every ancestor up to and including the enclosing file;
a keyed write whose value compares equal to the stored one reports
nothing. -/
theorem c1_dirty_propagation (c : RChain) (container : JsonValue) (op : MutOp) :
    ((applyMutOp container op).2 = true →
      ∀ b ∈ (mutateData c container op).2.flags, b = true) ∧
    (∀ kvs k, (applyMutOp (.obj kvs) (.delKey k)).2 = true) ∧
    (∀ xs v, (applyMutOp (.arr xs) (.appendVal v)).2 = true) ∧
    (∀ xs vs, (applyMutOp (.arr xs) (.extendVals vs)).2 = true) ∧
    (∀ kvs k v, (applyMutOp (.obj kvs) (.setKey k v)).2 = true ↔ get_item kvs k ≠ v) := by
  refine ⟨fun h b hb => ?_, fun kvs k => rfl, fun xs v => rfl, fun xs vs => rfl,
    fun kvs k v => by simp [applyMutOp]⟩
  simp only [mutateData, h, if_true] at hb
  rw [RChain.setDirty_flags] at hb
  exact (List.eq_of_mem_replicate hb)

/-- C1 counterexample: writing the key `"k"` with value `null` into an
empty Notify map genuinely mutates the map (the key appears), yet no
dirty flag is set anywhere on the chain, because `get_item` returns
Python `None` for the missing key and `None == None`; so "mutating any
field of `s.data` (writing a key …) sets `s.dirty` to true" fails as
stated. -/
theorem c1_counterexample :
    (applyMutOp (.obj .nil) (.setKey "k" .null)).1
        = some (.obj (.cons "k" .null .nil)) ∧
    (mutateData (.sub false (.file false)) (.obj .nil) (.setKey "k" .null)).2.flags
        = [false, false] := by
  constructor
  · rfl
  · rfl

/-- C1 witness. -/
theorem c1_dirty_propagation_witness :
    ∀ b ∈ (mutateData (.sub false (.sub false (.file false)))
        (.obj (.cons "k" (.num 1) .nil)) (.setKey "k" (.num 2))).2.flags,
      b = true := by
  exact (c1_dirty_propagation (.sub false (.sub false (.file false)))
    (.obj (.cons "k" (.num 1) .nil)) (.setKey "k" (.num 2))).1 (by decide)

/-- C8: on a Notify Container with an owner, a keyed write whose new
value compares equal to the value already present leaves the owner's
dirty flag unchanged; a keyed write of a differing value, a deletion,
an append and an extend set it to true (deletion, append and extend
regardless of value equality) — `NotifyDict.__setitem__` /
`__delitem__` (`core.py` 436-448) and `NotifyList` (`core.py`
470-492). -/
theorem c8_notify_dirty_marking (kvs : JsonObj) (k : String) (v w : JsonValue)
    (d : Bool) (xs vs : JsonArr) :
    (kvs.lookup k = some v → (notifyApply (.obj kvs) d (.setKey k v)).2 = d) ∧
    (kvs.lookup k = some w → w ≠ v →
      (notifyApply (.obj kvs) d (.setKey k v)).2 = true) ∧
    ((notifyApply (.obj kvs) d (.delKey k)).2 = true) ∧
    ((notifyApply (.arr xs) d (.appendVal v)).2 = true) ∧
    ((notifyApply (.arr xs) d (.extendVals vs)).2 = true) := by
  refine ⟨fun h => ?_, fun h hne => ?_, rfl, rfl, rfl⟩
  · simp [notifyApply, applyMutOp, get_item, h]
  · simp [notifyApply, applyMutOp, get_item, h, hne]

/-- C8 witness. -/
theorem c8_notify_dirty_marking_witness :
    (notifyApply (.obj (.cons "a" (.num 1) .nil)) false (.setKey "a" (.num 1))).2
        = false ∧
    (notifyApply (.obj (.cons "a" (.num 1) .nil)) false (.setKey "a" (.num 2))).2
        = true := by
  have h := c8_notify_dirty_marking (.cons "a" (.num 1) .nil) "a" (.num 1) (.num 1)
    false .nil .nil
  have h2 := c8_notify_dirty_marking (.cons "a" (.num 1) .nil) "a" (.num 2) (.num 1)
    false .nil .nil
  exact ⟨h.1 (by decide), h2.2.1 (by decide) (by decide)⟩

/-- C9: `get_jsonpath` returns the value stored at a path when it
resolves; when it does not, it returns the supplied default, and
raises `AssetNotFoundError` when no default was supplied; it is a pure
read of the document (`core.py` 733-749). -/
theorem c9_get_jsonpath (data : JsonValue) (path : String) (v dflt : JsonValue) :
    (dpathGet data (splitPath path) = some v →
      ∀ dopt, get_jsonpath data path dopt = .ok v) ∧
    (dpathGet data (splitPath path) = none →
      get_jsonpath data path (some dflt) = .ok dflt) ∧
    (dpathGet data (splitPath path) = none →
      get_jsonpath data path none = .error .assetNotFound) := by
  refine ⟨fun h dopt => ?_, fun h => ?_, fun h => ?_⟩ <;>
    simp [get_jsonpath, h]

/-- C9 witness. -/
theorem c9_get_jsonpath_witness :
    get_jsonpath (.obj (.cons "a" (.num 3) .nil)) "a" none = .ok (.num 3) ∧
    get_jsonpath (.obj (.cons "a" (.num 3) .nil)) "b" (some (.num 7)) = .ok (.num 7) ∧
    get_jsonpath (.obj (.cons "a" (.num 3) .nil)) "b" none
        = .error .assetNotFound := by
  have h := c9_get_jsonpath (.obj (.cons "a" (.num 3) .nil)) "a" (.num 3) (.num 7)
  have h2 := c9_get_jsonpath (.obj (.cons "a" (.num 3) .nil)) "b" (.num 3) (.num 7)
  exact ⟨h.1 (by decide) none, h2.2.1 (by decide), h2.2.2 (by decide)⟩

/-- Keys and values have as many elements as the object. -/
theorem JsonObj.keys_length : ∀ kvs : JsonObj, kvs.keys.length = kvs.length
  | .nil => rfl
  | .cons _ _ kvs => by
    simp [JsonObj.keys, JsonObj.length, keys_length kvs, Nat.add_comm]

theorem JsonObj.values_length : ∀ kvs : JsonObj, kvs.values.length = kvs.length
  | .nil => rfl
  | .cons _ _ kvs => by
    simp [JsonObj.values, JsonObj.length, values_length kvs, Nat.add_comm]

theorem JsonArr.toList_length : ∀ xs : JsonArr, xs.toList.length = xs.length
  | .nil => rfl
  | .cons _ xs => by
    simp [JsonArr.toList, JsonArr.length, toList_length xs, Nat.add_comm]

/-- The dict branch of `get_data_at` pairs each key's path with its
value, in order. -/
theorem objChildren_eq : ∀ (kvs : JsonObj) (base : String),
    objChildren base kvs
      = (kvs.keys.map (fun k => base ++ "/" ++ k)).zip kvs.values
  | .nil, _ => rfl
  | .cons k v kvs, base => by
    simp [objChildren, JsonObj.keys, JsonObj.values, objChildren_eq kvs base,
      List.zip]

/-- The list branch of `get_data_at` pairs each index's path with the
element at that index, in order, starting at `i`. -/
theorem arrChildren_eq : ∀ (xs : JsonArr) (base : String) (i : Nat),
    arrChildren base i xs
      = ((List.range' i xs.length).map
          (fun j => base ++ "/[" ++ natToStr j ++ "]")).zip xs.toList
  | .nil, _, _ => rfl
  | .cons v xs, base, i => by
    have h1 : JsonArr.length (.cons v xs) = xs.length + 1 := by
      simp [JsonArr.length, Nat.add_comm]
    simp [arrChildren, JsonArr.toList, h1, List.range'_succ,
      arrChildren_eq xs base (i + 1), List.zip]

/-- C7: `get_data_at` over a path addressing a map of `n` entries
yields exactly `n` `(path, value)` pairs whose paths are
`<base>/<key>`; over a sequence of `n` elements it yields `n` pairs
with paths `<base>/[i]`; over a path addressing a scalar it raises
`AmbiguousAssetError` (`core.py` 751-777). -/
theorem c7_enumerate_children (data : JsonValue) (path : String) :
    (∀ kvs, path ≠ "**" → dpathGet data (splitPath path) = some (.obj kvs) →
      get_data_at data path
          = .ok ((kvs.keys.map (fun k => path ++ "/" ++ k)).zip kvs.values) ∧
      ∃ l, get_data_at data path = .ok l ∧ l.length = kvs.length) ∧
    (∀ xs, path ≠ "**" → dpathGet data (splitPath path) = some (.arr xs) →
      get_data_at data path
          = .ok (((List.range' 0 xs.length).map
              (fun j => path ++ "/[" ++ natToStr j ++ "]")).zip xs.toList) ∧
      ∃ l, get_data_at data path = .ok l ∧ l.length = xs.length) ∧
    (∀ v, path ≠ "**" → dpathGet data (splitPath path) = some v →
      v.isContainer = false →
      get_data_at data path = .error .ambiguousAsset) := by
  refine ⟨fun kvs hne hg => ?_, fun xs hne hg => ?_, fun v hne hg hc => ?_⟩
  · have he : get_data_at data path = .ok (objChildren path kvs) := by
      simp [get_data_at, hne, hg]
    refine ⟨by rw [he, objChildren_eq], objChildren path kvs, he, ?_⟩
    rw [objChildren_eq]
    simp [JsonObj.keys_length, JsonObj.values_length]
  · have he : get_data_at data path = .ok (arrChildren path 0 xs) := by
      simp [get_data_at, hne, hg]
    refine ⟨by rw [he, arrChildren_eq], arrChildren path 0 xs, he, ?_⟩
    rw [arrChildren_eq]
    simp [JsonArr.toList_length]
  · cases v with
    | null => simp [get_data_at, hne, hg]
    | bool b => simp [get_data_at, hne, hg]
    | num n => simp [get_data_at, hne, hg]
    | str s => simp [get_data_at, hne, hg]
    | arr xs => simp [JsonValue.isContainer] at hc
    | obj kvs => simp [JsonValue.isContainer] at hc

/-- C7 witness: a two-entry map, a two-element sequence, a scalar. -/
theorem c7_enumerate_children_witness :
    get_data_at (.obj (.cons "m"
        (.obj (.cons "a" (.num 1) (.cons "b" (.num 2) .nil))) .nil)) "m"
      = .ok [("m/a", .num 1), ("m/b", .num 2)] ∧
    get_data_at (.obj (.cons "l"
        (.arr (.cons (.num 7) (.cons (.num 8) .nil))) .nil)) "l"
      = .ok [("l/[0]", .num 7), ("l/[1]", .num 8)] ∧
    get_data_at (.obj (.cons "s" (.num 3) .nil)) "s"
      = .error .ambiguousAsset := by
  refine ⟨?_, ?_, ?_⟩
  · have h := (c7_enumerate_children (.obj (.cons "m"
      (.obj (.cons "a" (.num 1) (.cons "b" (.num 2) .nil))) .nil)) "m").1
      (.cons "a" (.num 1) (.cons "b" (.num 2) .nil)) (by decide) (by decide)
    exact h.1
  · have h := (c7_enumerate_children (.obj (.cons "l"
      (.arr (.cons (.num 7) (.cons (.num 8) .nil))) .nil)) "l").2.1
      (.cons (.num 7) (.cons (.num 8) .nil)) (by decide) (by decide)
    exact h.1
  · exact (c7_enumerate_children (.obj (.cons "s" (.num 3) .nil)) "s").2.2
      (.num 3) (by decide) (by decide) (by decide)

/-- Inversion of one step of the child-saving loop. -/
theorem saveKids_cons_inv (force : Bool) (t : SubTree) (ts : SubForest)
    (d : JsonValue) (b : Bool) (ts2 : SubForest) (d2 : JsonValue) (b2 : Bool)
    (fwd : List POp) (evs : List Event)
    (h : saveKids force (.cons t ts) d b = .ok (ts2, d2, b2, fwd, evs)) :
    ∃ t2 ops1 evs1 d1 b1 fwd1 ts3 fwd3 evs3,
      saveSub force t = .ok (t2, ops1, evs1) ∧
      applyOps d b ops1 = .ok (d1, b1, fwd1) ∧
      saveKids force ts d1 b1 = .ok (ts3, d2, b2, fwd3, evs3) ∧
      ts2 = .cons t2 ts3 ∧ fwd = fwd1 ++ fwd3 ∧ evs = evs1 ++ evs3 := by
  rw [saveKids] at h
  cases hs : saveSub force t with
  | error er => rw [hs] at h; simp at h
  | ok r1 =>
    obtain ⟨t2, ops1, evs1⟩ := r1
    rw [hs] at h
    dsimp only at h
    cases ha : applyOps d b ops1 with
    | error er => rw [ha] at h; simp at h
    | ok r2 =>
      obtain ⟨d1, b1, fwd1⟩ := r2
      rw [ha] at h
      dsimp only at h
      cases hk : saveKids force ts d1 b1 with
      | error er => rw [hk] at h; simp at h
      | ok r3 =>
        obtain ⟨ts3, d3, b3, fwd3, evs3⟩ := r3
        rw [hk] at h
        simp only [Except.ok.injEq, Prod.mk.injEq] at h
        obtain ⟨h1, h2, h3, h4, h5⟩ := h
        subst h1 h2 h3 h4 h5
        exact ⟨t2, ops1, evs1, d1, b1, fwd1, ts3, fwd3, evs3, rfl, ha, hk, rfl, rfl, rfl⟩

/-- Inversion of a proceeding sub-resource save. -/
theorem saveSub_go_inv (force : Bool) (i : Nat) (d : JsonValue) (jp op : String)
    (dirty deleted : Bool) (kids : SubForest) (t2 : SubTree) (ops : List POp)
    (evs : List Event)
    (hgo : (dirty || force) = true)
    (h : saveSub force (.mk i d jp op dirty deleted kids) = .ok (t2, ops, evs)) :
    ∃ kids2 d2 b2 fwd evs1,
      saveKids force kids d dirty = .ok (kids2, d2, b2, fwd, evs1) ∧
      t2 = .mk i d2 jp op false deleted kids2 ∧
      ops = fwd ++ subOwnOps deleted jp op d2 ++ [POp.setDirty false] ∧
      evs = evs1 ++ [Event.persistSub i] := by
  rw [saveSub, if_pos hgo] at h
  cases hk : saveKids force kids d dirty with
  | error er => rw [hk] at h; simp at h
  | ok r =>
    obtain ⟨kids2, d2, b2, fwd, evs1⟩ := r
    rw [hk] at h
    simp only [Except.ok.injEq, Prod.mk.injEq] at h
    obtain ⟨h1, h2, h3⟩ := h
    exact ⟨kids2, d2, b2, fwd, evs1, rfl, h1.symm, h2.symm, h3.symm⟩

mutual
/-- Saving a sub-resource only writes into its parent's in-memory
data: its event trace holds no disk event. -/
theorem saveSub_disk_free : ∀ (force : Bool) (t : SubTree) t2 ops evs,
    saveSub force t = .ok (t2, ops, evs) → ∀ e ∈ evs, e.isDisk = false
  | force, .mk i d jp op dirty deleted kids, t2, ops, evs => by
    intro h e he
    by_cases hc : (dirty || force) = true
    · obtain ⟨kids2, d2, b2, fwd, evs1, hk, -, -, hevs⟩ :=
        saveSub_go_inv force i d jp op dirty deleted kids t2 ops evs hc h
      subst hevs
      rcases List.mem_append.mp he with h1 | h1
      · exact saveKids_disk_free force kids d dirty _ _ _ _ _ hk e h1
      · simp at h1
        subst h1
        rfl
    · rw [saveSub, if_neg hc] at h
      simp only [Except.ok.injEq, Prod.mk.injEq] at h
      obtain ⟨-, -, hevs⟩ := h
      subst hevs
      simp at he

/-- The child-saving loop produces no disk event either. -/
theorem saveKids_disk_free : ∀ (force : Bool) (ts : SubForest) (d : JsonValue)
    (b : Bool) ts2 d2 b2 fwd evs,
    saveKids force ts d b = .ok (ts2, d2, b2, fwd, evs) →
    ∀ e ∈ evs, e.isDisk = false
  | force, .nil, d, b, ts2, d2, b2, fwd, evs => by
    intro h e he
    rw [saveKids] at h
    simp only [Except.ok.injEq, Prod.mk.injEq] at h
    obtain ⟨-, -, -, -, hevs⟩ := h
    subst hevs
    simp at he
  | force, .cons t ts, d, b, ts2, d2, b2, fwd, evs => by
    intro h e he
    obtain ⟨t2, ops1, evs1, d1, b1, fwd1, ts3, fwd3, evs3, hs, ha, hk, -, -, hevs⟩ :=
      saveKids_cons_inv force t ts d b ts2 d2 b2 fwd evs h
    subst hevs
    rcases List.mem_append.mp he with h1 | h1
    · exact saveSub_disk_free force t _ _ _ hs e h1
    · exact saveKids_disk_free force ts d1 b1 _ _ _ _ _ hk e h1
end

/-- The no-op branch of `Resource.save`: attached, clean and unforced
means nothing happens. -/
theorem saveFile_skip (f : FileNode) (force : Bool) (pk : Pack)
    (hpk : f.pack = some pk) (hdf : (f.dirty || force) = false) :
    saveFile f force = .ok (f, []) := by
  rw [saveFile, hpk]
  dsimp only
  rw [hdf]
  simp

/-- Inversion of a proceeding file save. -/
theorem saveFile_go_inv (f : FileNode) (force : Bool) (pk : Pack) (f2 : FileNode)
    (evs : List Event) (hpk : f.pack = some pk) (hdf : (f.dirty || force) = true)
    (hs : saveFile f force = .ok (f2, evs)) :
    ∃ kids2 d2 b2 fwd kevs,
      saveKids force f.children f.data f.dirty = .ok (kids2, d2, b2, fwd, kevs) ∧
      f2 = { f with children := kids2, data := d2, dirty := false } ∧
      evs = kevs ++ fileOwnEvents pk f.deleted f.filepath d2 := by
  rw [saveFile, hpk] at hs
  dsimp only at hs
  rw [if_pos hdf] at hs
  cases hk : saveKids force f.children f.data f.dirty with
  | error er => rw [hk] at hs; simp at hs
  | ok r =>
    obtain ⟨kids2, d2, b2, fwd, kevs⟩ := r
    rw [hk] at hs
    simp only [Except.ok.injEq, Prod.mk.injEq] at hs
    obtain ⟨h1, h2⟩ := hs
    exact ⟨kids2, d2, b2, fwd, kevs, rfl, by rw [hpk]; exact h1.symm, h2.symm⟩

/-- Inversion of a file deletion. -/
theorem deleteFile_inv (f f2 : FileNode) (devs : List Event)
    (h : deleteFile f = .ok (f2, devs)) :
    ∃ kids2 d2 b2 fwd,
      deleteKids f.children f.data f.dirty = .ok (kids2, d2, b2, fwd) ∧
      f2 = { f with children := kids2, data := d2, dirty := b2, deleted := true } ∧
      devs = [] := by
  rw [deleteFile] at h
  cases hdk : deleteKids f.children f.data f.dirty with
  | error er => rw [hdk] at h; simp at h
  | ok r =>
    obtain ⟨kids2, d2, b2, fwd⟩ := r
    rw [hdk] at h
    simp only [Except.ok.injEq, Prod.mk.injEq] at h
    obtain ⟨h1, h2⟩ := h
    exact ⟨kids2, d2, b2, fwd, rfl, h1.symm, h2.symm⟩

/-- C5: saving a File Resource whose `pack` is absent raises
`FloatingAssetError`, whatever the dirty flag and the force flag are
(`Resource.save`, `core.py` 565-575: the check precedes the dirty
test). -/
theorem c5_floating_save_error (f : FileNode) (force : Bool) (h : f.pack = none) :
    saveFile f force = .error .floatingAsset := by
  rw [saveFile, h]

/-- C5 witness: a dirty floating file, saved with force. -/
theorem c5_floating_save_error_witness :
    saveFile ⟨"e.json", none, .obj .nil, true, false, .nil⟩ true
      = .error .floatingAsset :=
  c5_floating_save_error ⟨"e.json", none, .obj .nil, true, false, .nil⟩ true rfl

/-- C2: `save(force)` performs its persistence action only when the
resource is dirty or force is set (otherwise it is an exact no-op);
when it proceeds it first raises if the File Resource has no Pack,
then saves every registered child with the same force flag (the
children's events, none of which touch the disk, come first), then
performs its own persistence action as the final events, and clears
the dirty flag as the terminal step (`Resource.save`, `core.py`
565-587). -/
theorem c2_save_protocol (f : FileNode) (force : Bool) :
    (f.pack = none → saveFile f force = .error .floatingAsset) ∧
    ((f.dirty || force) = false → f.pack ≠ none → saveFile f force = .ok (f, [])) ∧
    (∀ pk f2 evs, f.pack = some pk → (f.dirty || force) = true →
      saveFile f force = .ok (f2, evs) →
      ∃ kids2 d2 b2 fwd kevs,
        saveKids force f.children f.data f.dirty = .ok (kids2, d2, b2, fwd, kevs) ∧
        evs = kevs ++ fileOwnEvents pk f.deleted f.filepath d2 ∧
        (∀ e ∈ kevs, e.isDisk = false) ∧
        f2 = { f with children := kids2, data := d2, dirty := false }) := by
  refine ⟨fun hp => by rw [saveFile, hp], fun hdf hp => ?_,
    fun pk f2 evs hpk hdf hs => ?_⟩
  · obtain ⟨pk, hpk⟩ : ∃ pk, f.pack = some pk := by
      cases hq : f.pack with
      | none => exact absurd hq hp
      | some pk => exact ⟨pk, rfl⟩
    exact saveFile_skip f force pk hpk hdf
  · obtain ⟨kids2, d2, b2, fwd, kevs, hk, hf2, hevs⟩ :=
      saveFile_go_inv f force pk f2 evs hpk hdf hs
    exact ⟨kids2, d2, b2, fwd, kevs, hk, hevs,
      saveKids_disk_free force f.children f.data f.dirty _ _ _ _ _ hk, hf2⟩

/-- C2 witness: a dirty attached file, saved without force. -/
theorem c2_save_protocol_witness :
    ∃ f2 evs,
      saveFile ⟨"e.json", some ⟨"in", "in"⟩, .obj .nil, true, false, .nil⟩ false
        = .ok (f2, evs) ∧
      ∃ kids2 d2 b2 fwd kevs,
        saveKids false SubForest.nil (JsonValue.obj .nil) true
            = .ok (kids2, d2, b2, fwd, kevs) ∧
        evs = kevs ++ fileOwnEvents ⟨"in", "in"⟩ false "e.json" d2 ∧
        (∀ e ∈ kevs, e.isDisk = false) ∧
        f2 = { (⟨"e.json", some ⟨"in", "in"⟩, .obj .nil, true, false, .nil⟩ : FileNode)
               with children := kids2, data := d2, dirty := false } := by
  refine ⟨_, _, rfl, ?_⟩
  exact (c2_save_protocol
    ⟨"e.json", some ⟨"in", "in"⟩, .obj .nil, true, false, .nil⟩ false).2.2
    ⟨"in", "in"⟩ _ _ rfl rfl rfl

/-- C4: saving twice in succession with no intervening mutation
performs the persistence action at most once: whatever the first save
returned, the file it returns is clean, so the second save is an
exact no-op with an empty event trace — even though child
sub-resource saves re-dirty the parent mid-save through
`set_jsonpath` (`core.py` 714-730), the terminal clear of
`Resource.save` (`core.py` 587) wins. -/
theorem c4_save_idempotent (f f2 : FileNode) (force : Bool) (evs : List Event)
    (h : saveFile f force = .ok (f2, evs)) :
    saveFile f2 false = .ok (f2, []) := by
  cases hpk : f.pack with
  | none => rw [saveFile, hpk] at h; simp at h
  | some pk =>
    by_cases hdf : (f.dirty || force) = true
    · obtain ⟨kids2, d2, b2, fwd, kevs, hk, hf2, -⟩ :=
        saveFile_go_inv f force pk f2 evs hpk hdf h
      subst hf2
      exact saveFile_skip _ false pk (by simpa using hpk) (by simp)
    · have hdf2 : (f.dirty || force) = false := by
        revert hdf
        cases (f.dirty || force) <;> simp
      rw [saveFile_skip f force pk hpk hdf2] at h
      simp only [Except.ok.injEq, Prod.mk.injEq] at h
      obtain ⟨h1, -⟩ := h
      subst h1
      have hdirty : f.dirty = false := (Bool.or_eq_false_iff.mp hdf2).1
      exact saveFile_skip f false pk hpk (by simp [hdirty])

/-- C4 witness. -/
theorem c4_save_idempotent_witness :
    saveFile ⟨"e.json", some ⟨"in", "in"⟩, .obj .nil, false, false, .nil⟩ false
      = .ok (⟨"e.json", some ⟨"in", "in"⟩, .obj .nil, false, false, .nil⟩, []) :=
  c4_save_idempotent ⟨"e.json", some ⟨"in", "in"⟩, .obj .nil, true, false, .nil⟩
    ⟨"e.json", some ⟨"in", "in"⟩, .obj .nil, false, false, .nil⟩ false
    [Event.writeFile "in" "e.json" (.obj .nil)] rfl

/-- C6: `delete()` on a file resource performs no disk action (it only
marks the file); the physical removal happens during a subsequent
save that proceeds, targets the path under the pack's output root,
and actually removes the file only when the pack's input root and
output root compare equal — when they differ, no disk event occurs at
all for the deleted file (`FileResource._delete`, `core.py` 625-632;
`JsonFileResource._save`, `core.py` 945-958). -/
theorem c6_deferred_deletion (f f2 f3 : FileNode) (pk : Pack) (force : Bool)
    (devs evs : List Event)
    (hpk : f.pack = some pk)
    (hd : deleteFile f = .ok (f2, devs))
    (hs : saveFile f2 force = .ok (f3, evs))
    (hgo : (f2.dirty || force) = true) :
    devs = [] ∧ f2.deleted = true ∧
    evs.filter Event.isDisk
      = (if smart_compare pk.inputPath pk.outputDirectory
         then [Event.removeFile pk.outputDirectory f.filepath]
         else []) := by
  obtain ⟨kids2, d2, b2, fwd, hdk, hf2, hdevs⟩ := deleteFile_inv f f2 devs hd
  have hdel : f2.deleted = true := by rw [hf2]
  have hpk2 : f2.pack = some pk := by rw [hf2]; exact hpk
  have hfp : f2.filepath = f.filepath := by rw [hf2]
  obtain ⟨kids3, d3, b3, fwd3, kevs, hk, hf3, hevs⟩ :=
    saveFile_go_inv f2 force pk f3 evs hpk2 hgo hs
  subst hevs
  refine ⟨hdevs, hdel, ?_⟩
  have hknil : kevs.filter Event.isDisk = [] :=
    List.filter_eq_nil_iff.mpr (fun e he => by
      simp [saveKids_disk_free force f2.children f2.data f2.dirty _ _ _ _ _ hk e he])
  rw [List.filter_append, hknil, List.nil_append, fileOwnEvents, if_pos hdel, hfp]
  by_cases hcmp : smart_compare pk.inputPath pk.outputDirectory = true
  · rw [if_pos hcmp]
    rfl
  · rw [if_neg hcmp]
    rfl

/-- C6 witness: a deleted file whose pack has equal roots is removed
on save, and its deletion produced no event. -/
theorem c6_deferred_deletion_witness :
    ([Event.removeFile "in" "e.json"].filter Event.isDisk
        = (if smart_compare "in" "in"
           then [Event.removeFile "in" "e.json"] else [])) ∧
    (([] : List Event) = []) := by
  have h := c6_deferred_deletion
    ⟨"e.json", some ⟨"in", "in"⟩, .obj .nil, false, false, .nil⟩
    ⟨"e.json", some ⟨"in", "in"⟩, .obj .nil, false, true, .nil⟩
    ⟨"e.json", some ⟨"in", "in"⟩, .obj .nil, false, true, .nil⟩
    ⟨"in", "in"⟩ true [] [Event.removeFile "in" "e.json"]
    rfl rfl rfl rfl
  exact ⟨h.2.2, h.1⟩

/-- C3 (amended): when a Json Sub-Resource's `json_path` differs from
its `original_json_path` at save time, saving deletes the data at the
original path from the parent, then sets the current data at the
current path — but `original_json_path` is not updated: it keeps its
construction-time value, so a subsequent save still treats the
construction-time location as the original (`JsonSubResource._save`,
`core.py` 854-873). -/
theorem c3_rename_relocation (t t2 : SubTree) (force : Bool)
    (ops : List POp) (evs : List Event)
    (hgo : (t.dirty || force) = true)
    (hdel : t.deleted = false)
    (hne : t.jsonPath ≠ t.origPath)
    (h : saveSub force t = .ok (t2, ops, evs)) :
    t2.origPath = t.origPath ∧ t2.jsonPath = t.jsonPath ∧
    ∃ fwd, ops = fwd ++ [POp.deleteJsonpath t.origPath,
                         POp.setJsonpath t.jsonPath t2.data,
                         POp.setDirty false] := by
  obtain ⟨i, d, jp, op, dirty, deleted, kids⟩ := t
  simp only [SubTree.dirty] at hgo
  simp only [SubTree.deleted] at hdel
  simp only [SubTree.jsonPath, SubTree.origPath] at hne
  subst hdel
  obtain ⟨kids2, d2, b2, fwd, evs1, hk, ht2, hops, -⟩ :=
    saveSub_go_inv force i d jp op dirty false kids t2 ops evs hgo h
  subst ht2
  refine ⟨rfl, rfl, fwd, ?_⟩
  rw [hops]
  simp [subOwnOps, hne, SubTree.origPath, SubTree.jsonPath, SubTree.data]

/-- C3 counterexample: a sub-resource constructed at `comps/b` and
renamed to `comps/c` still has `original_json_path = "comps/b"` after
its enclosing file is saved, while the claim says it would have
adopted `"comps/c"`. -/
theorem c3_counterexample :
    ∃ f2 evs s, saveFile
        ⟨"e.json", some ⟨"in", "in"⟩,
         .obj (.cons "comps"
           (.obj (.cons "a" (.num 1) (.cons "b" (.num 2) .nil))) .nil),
         true, false,
         .cons (.mk 1 (.num 5) "comps/c" "comps/b" true false .nil) .nil⟩ false
      = .ok (f2, evs) ∧
    f2.children.head? = some s ∧
    s.jsonPath = "comps/c" ∧ s.origPath = "comps/b" ∧ s.origPath ≠ s.jsonPath := by
  refine ⟨_, _, _, rfl, rfl, rfl, rfl, ?_⟩
  decide

/-- C3 witness (for the amended claim). -/
theorem c3_rename_relocation_witness :
    SubTree.origPath (.mk 1 (.num 5) "comps/c" "comps/b" false false .nil)
        = SubTree.origPath (.mk 1 (.num 5) "comps/c" "comps/b" true false .nil) ∧
    SubTree.jsonPath (.mk 1 (.num 5) "comps/c" "comps/b" false false .nil)
        = SubTree.jsonPath (.mk 1 (.num 5) "comps/c" "comps/b" true false .nil) ∧
    ∃ fwd, [POp.deleteJsonpath "comps/b", POp.setJsonpath "comps/c" (.num 5),
            POp.setDirty false]
        = fwd ++ [POp.deleteJsonpath
             (SubTree.origPath (.mk 1 (.num 5) "comps/c" "comps/b" true false .nil)),
           POp.setJsonpath
             (SubTree.jsonPath (.mk 1 (.num 5) "comps/c" "comps/b" true false .nil))
             (SubTree.data (.mk 1 (.num 5) "comps/c" "comps/b" false false .nil)),
           POp.setDirty false] :=
  c3_rename_relocation (.mk 1 (.num 5) "comps/c" "comps/b" true false .nil)
    (.mk 1 (.num 5) "comps/c" "comps/b" false false .nil) false
    [POp.deleteJsonpath "comps/b", POp.setJsonpath "comps/c" (.num 5),
     POp.setDirty false]
    [Event.persistSub 1] (by decide) rfl (by decide) rfl

end Reticulator
